import Mathlib

/-!
Shallow embedding of the hono-ban error-handling core and proofs about it.

The embedding models the TypeScript sources:
  * `src/utils/sanitize.ts`      — `sanitizeObject`
  * `src/utils/validate.ts`      — `validateStatusCode`
  * `src/core/create-error.ts`   — `createError`
  * `src/core/convert-error.ts`  — `isBanError`, `convertToBanError`
  * `src/core/format-error.ts`   — `formatError`, `createErrorResponse`
  * `src/factories/*`            — `createErrorWithStatus`, named factories,
                                   `badImplementation`
  * `src/formatters/default/*`   — `defaultFormatter`
  * `src/middleware/ban-middleware.ts` — `ban`

JavaScript runtime values that flow through the library (error `data`,
formatter payloads, thrown values) are modelled by the mutual inductive
`JSValue`/`JSList`/`JSFields`; machine-level concerns (prototype chains,
property enumeration subtleties) are outside the model.
-/

namespace HonoBan

mutual

/-- A JSON-like JavaScript runtime value: `null`, `undefined`, string,
integer number, boolean, array, or plain object. -/
inductive JSValue : Type where
  | vnull : JSValue
  | vundefined : JSValue
  | vstr (s : String) : JSValue
  | vnum (n : Int) : JSValue
  | vbool (b : Bool) : JSValue
  | varr (items : JSList) : JSValue
  | vobj (fields : JSFields) : JSValue

/-- A list of JavaScript values (an array's elements). -/
inductive JSList : Type where
  | nil : JSList
  | cons (head : JSValue) (tail : JSList) : JSList

/-- The ordered own enumerable entries of a JavaScript object. -/
inductive JSFields : Type where
  | nil : JSFields
  | cons (name : String) (value : JSValue) (tail : JSFields) : JSFields

end

/-- First entry of an object with the given name, if any. -/
def fieldsGet : JSFields → String → Option JSValue
  | .nil, _ => none
  | .cons n v t, k => if n == k then some v else fieldsGet t k

/-- Whether an object has an own entry with the given name. -/
def fieldsHas (fs : JSFields) (k : String) : Bool :=
  (fieldsGet fs k).isSome

/-- `true` for values that are neither arrays nor objects (scalars). -/
def isScalar : JSValue → Bool
  | .varr _ => false
  | .vobj _ => false
  | _ => true

mutual

/-- Embeds `sanitizeObject` from `src/utils/sanitize.ts`: returns the value
unchanged when `keysToRemove` is empty, maps over arrays, rebuilds objects
dropping every entry whose name is in `keysToRemove` (recursing into kept
values), and passes every other value through. -/
def sanitizeObject (v : JSValue) (keysToRemove : List String) : JSValue :=
  if keysToRemove.isEmpty then v
  else
    match v with
    | .varr items => .varr (sanitizeList items keysToRemove)
    | .vobj fields => .vobj (sanitizeFields fields keysToRemove)
    | other => other

/-- The `obj.map((item) => sanitizeObject(item, keysToRemove))` step. -/
def sanitizeList (l : JSList) (keysToRemove : List String) : JSList :=
  match l with
  | .nil => .nil
  | .cons h t => .cons (sanitizeObject h keysToRemove) (sanitizeList t keysToRemove)

/-- The `Object.entries(obj).reduce(...)` step: skip removed keys, recurse on
kept values, preserving entry order. -/
def sanitizeFields (fs : JSFields) (keysToRemove : List String) : JSFields :=
  match fs with
  | .nil => .nil
  | .cons name value t =>
      if keysToRemove.contains name then sanitizeFields t keysToRemove
      else .cons name (sanitizeObject value keysToRemove) (sanitizeFields t keysToRemove)

end

mutual

/-- Whether an object entry named `k` occurs anywhere in the value: at the top
level, in nested objects, or inside array elements. -/
def containsKeyDeep : JSValue → String → Bool
  | .varr items, k => listContainsKeyDeep items k
  | .vobj fields, k => fieldsContainKeyDeep fields k
  | _, _ => false

/-- `containsKeyDeep` over an array's elements. -/
def listContainsKeyDeep : JSList → String → Bool
  | .nil, _ => false
  | .cons h t, k => containsKeyDeep h k || listContainsKeyDeep t k

/-- `containsKeyDeep` over an object's entries. -/
def fieldsContainKeyDeep : JSFields → String → Bool
  | .nil, _ => false
  | .cons n v t, k => n == k || containsKeyDeep v k || fieldsContainKeyDeep t k

end

/-- JavaScript truthiness for the values of `JSValue`. -/
def jsTruthy : JSValue → Bool
  | .vnull => false
  | .vundefined => false
  | .vbool b => b
  | .vnum n => n != 0
  | .vstr s => !s.isEmpty
  | .varr _ => true
  | .vobj _ => true

/-- Replace the first entry named `k` (keeping its position), or append a new
entry — the effect of a later `k: v` on an object literal or of spreading. -/
def setField : JSFields → String → JSValue → JSFields
  | .nil, k, v => .cons k v .nil
  | .cons n w t, k, v => if n == k then .cons n v t else .cons n w (setField t k v)

/-- Fold a sequence of entries into an object, later entries overriding. -/
def foldSet : JSFields → JSFields → JSFields
  | base, .nil => base
  | base, .cons n v t => foldSet (setField base n v) t

/-- Index an array's elements as object entries `"0", "1", …`, the own
enumerable entries that object-spreading an array contributes. -/
def indexEntries (l : JSList) (i : Nat) : JSFields :=
  match l with
  | .nil => .nil
  | .cons h t => .cons (toString i) h (indexEntries t (i + 1))

/-- The own enumerable entries a value contributes when object-spread:
objects give their entries, arrays and strings their indexed members,
every other value nothing. -/
def entriesOf : JSValue → JSFields
  | .vobj fs => fs
  | .varr items => indexEntries items 0
  | .vstr s => indexEntries (s.data.foldr (fun c acc => .cons (.vstr (String.mk [c])) acc) .nil) 0
  | _ => .nil

/-- `{...base, ...v}`: spread `v`'s entries over `base`. -/
def spreadInto (base : JSFields) (v : JSValue) : JSFields :=
  foldSet base (entriesOf v)

/-! ## String-keyed records (headers maps) -/

/-- First value bound to `k` in a string record. -/
def recordGet : List (String × String) → String → Option String
  | [], _ => none
  | (n, v) :: t, k => if n == k then some v else recordGet t k

/-- Whether a record binds `k`. -/
def recordHas (m : List (String × String)) (k : String) : Bool :=
  (recordGet m k).isSome

/-- Bind `k` to `v`: replace the value at an existing key in place, or
append a fresh entry — the effect of setting a property on a JavaScript
object. -/
def recordSet : List (String × String) → String → String → List (String × String)
  | [], k, v => [(k, v)]
  | (n, w) :: t, k, v => if n == k then (n, v) :: t else (n, w) :: recordSet t k v

/-- `{...a, ...b}` on string records: `b`'s entries override `a`'s. -/
def recordMerge (a b : List (String × String)) : List (String × String) :=
  b.foldl (fun acc p => recordSet acc p.1 p.2) a

/-- A record is well formed (represents a JavaScript object) when no key
occurs twice. -/
def recordNodup : List (String × String) → Bool
  | [] => true
  | (n, _) :: t => !recordHas t n && recordNodup t

/-! ## Status codes -/

/-- A JavaScript value arriving where the library expects a numeric status:
an integer, `NaN`, or a non-number value. -/
inductive StatusVal : Type where
  | num (n : Int) : StatusVal
  | nan : StatusVal
  | nonNum : StatusVal
deriving DecidableEq

/-- Embeds `validateStatusCode` from `src/utils/validate.ts`: non-numbers and
`NaN` normalize to 500, as does anything outside `[400, 600)`. -/
def validateStatusCode : StatusVal → Int
  | .nonNum => 500
  | .nan => 500
  | .num n => if n < 400 || 600 ≤ n then 500 else n

/-- Whether a status value is a number in the error range `[400, 599]`. -/
def statusInRange : StatusVal → Bool
  | .num n => 400 ≤ n && n ≤ 599
  | _ => false

/-- Modelled from the spec: the status registry (`src/constants/status-codes.ts`
is not part of the provided sources). A static mapping from the registered
4xx/5xx codes to their canonical reason phrases; unregistered codes map to
nothing, callers supply the `"Unknown Error"` fallback themselves. -/
def statusCodeText : Int → Option String
  | 400 => some "Bad Request"
  | 401 => some "Unauthorized"
  | 402 => some "Payment Required"
  | 403 => some "Forbidden"
  | 404 => some "Not Found"
  | 405 => some "Method Not Allowed"
  | 406 => some "Not Acceptable"
  | 407 => some "Proxy Authentication Required"
  | 408 => some "Request Timeout"
  | 409 => some "Conflict"
  | 410 => some "Gone"
  | 411 => some "Length Required"
  | 412 => some "Precondition Failed"
  | 413 => some "Payload Too Large"
  | 414 => some "URI Too Long"
  | 415 => some "Unsupported Media Type"
  | 416 => some "Range Not Satisfiable"
  | 417 => some "Expectation Failed"
  | 418 => some "I'm a Teapot"
  | 421 => some "Misdirected Request"
  | 422 => some "Unprocessable Entity"
  | 423 => some "Locked"
  | 424 => some "Failed Dependency"
  | 425 => some "Too Early"
  | 426 => some "Upgrade Required"
  | 428 => some "Precondition Required"
  | 429 => some "Too Many Requests"
  | 431 => some "Request Header Fields Too Large"
  | 451 => some "Unavailable For Legal Reasons"
  | 500 => some "Internal Server Error"
  | 501 => some "Not Implemented"
  | 502 => some "Bad Gateway"
  | 503 => some "Service Unavailable"
  | 504 => some "Gateway Timeout"
  | 505 => some "HTTP Version Not Supported"
  | 506 => some "Variant Also Negotiates"
  | 507 => some "Insufficient Storage"
  | 508 => some "Loop Detected"
  | 510 => some "Not Extended"
  | 511 => some "Network Authentication Required"
  | _ => none

/-- `STATUS_CODES[status]` lookup lifted to status values: non-numeric
subscripts find nothing. -/
def STATUS_CODES (s : StatusVal) : Option String :=
  match s with
  | .num n => statusCodeText n
  | _ => none

/-- How a status value appears inside a JSON body (`NaN` serializes as
`null`, a non-number placeholder likewise carries no number). -/
def statusToJS : StatusVal → JSValue
  | .num n => .vnum n
  | _ => .vnull

/-! ## The error model -/

/-- A value carried in the `cause` slot: either an `Error` instance (with its
`message` and optional `stack`) or any other JavaScript value. -/
inductive CauseVal : Type where
  | cerr (message : String) (stack : Option String) : CauseVal
  | cval (v : JSValue) : CauseVal

/-- Truthiness of a cause value (`Error` instances are objects, so truthy). -/
def causeTruthy : CauseVal → Bool
  | .cerr _ _ => true
  | .cval v => jsTruthy v

/-- Whether a cause value is `null` or `undefined` (what `??` skips). -/
def causeNullish : CauseVal → Bool
  | .cval .vnull => true
  | .cval .vundefined => true
  | _ => false

/-- The `allow` option: a single method string or an array of them
(`AllowedMethods = string | string[]`). -/
inductive AllowVal : Type where
  | one (s : String) : AllowVal
  | many (l : List String) : AllowVal

/-- Truthiness of an `allow` option (only the empty string is falsy). -/
def allowTruthy : AllowVal → Bool
  | .one s => !s.isEmpty
  | .many _ => true

/-- `Array.isArray(allow) ? [...allow] : [allow]`. -/
def normalizeAllow : AllowVal → List String
  | .one s => [s]
  | .many l => l

/-- The part of a `BanError` every formatter reads (`status`, `message`,
`data`, `headers`, `allow`, `stack`, `cause`, `causeStack`, and the `isBan`
discriminant). `message` is `Option String` because `STATUS_CODES[status]`
can itself be `undefined` for unregistered in-range codes. -/
structure BanBase : Type where
  status : StatusVal
  message : Option String
  isBan : Bool
  data : Option JSValue := none
  headers : Option (List (String × String)) := none
  allow : Option (List String) := none
  stack : Option String := none
  cause : Option CauseVal := none
  causeStack : Option String := none

/-- The `ErrorFormatter` capability: a declared `contentType` and a pure
`format` function over the formatter-visible part of an error. -/
structure ErrorFormatter : Type where
  contentType : String
  format : BanBase → List (String × String) → List String → Bool → JSValue

/-- The full `BanError` object, adding the per-instance formatting overrides
`formatter`, `sanitize` and `includeStackTrace`. -/
structure BanError extends BanBase : Type where
  formatter : Option ErrorFormatter := none
  sanitize : Option (List String) := none
  includeStackTrace : Option Bool := none

/-- `BanOptions`: every field optional; `none` is an absent/`undefined`
field. -/
structure BanOptions : Type where
  statusCode : Option StatusVal := none
  message : Option String := none
  data : Option JSValue := none
  headers : Option (List (String × String)) := none
  allow : Option AllowVal := none
  cause : Option CauseVal := none
  formatter : Option ErrorFormatter := none
  sanitize : Option (List String) := none
  includeStackTrace : Option Bool := none

/-- `a ?? b` on optional fields: the left value when present. -/
def pick {α : Type} : Option α → Option α → Option α
  | some x, _ => some x
  | none, b => b

/-- `{...a, ...b}` on two (typed) options records: `b`'s present fields win. -/
def optsSpread (a b : BanOptions) : BanOptions where
  statusCode := pick b.statusCode a.statusCode
  message := pick b.message a.message
  data := pick b.data a.data
  headers := pick b.headers a.headers
  allow := pick b.allow a.allow
  cause := pick b.cause a.cause
  formatter := pick b.formatter a.formatter
  sanitize := pick b.sanitize a.sanitize
  includeStackTrace := pick b.includeStackTrace a.includeStackTrace

/-- Embeds `createError` from `src/core/create-error.ts`. The status is
validated and normalized, the message defaults to the registry lookup,
each optional property is attached behind the source's truthiness or
definedness guard, and a fresh stack trace is captured for the error —
`Error.captureStackTrace`'s environment-supplied text is the explicit
`freshStack` argument. -/
def createError (options : BanOptions) (freshStack : String) : BanError :=
  let status := StatusVal.num (validateStatusCode (options.statusCode.getD (.num 500)))
  { status := status
    message := pick options.message (STATUS_CODES status)
    isBan := true
    data := options.data
    headers := options.headers
    allow :=
      match options.allow with
      | some a => if allowTruthy a then some (normalizeAllow a) else none
      | none => none
    cause :=
      match options.cause with
      | some c => if causeTruthy c then some c else none
      | none => none
    causeStack :=
      match options.cause with
      | some (.cerr _ sk) => sk
      | _ => none
    stack := some freshStack
    formatter := options.formatter
    sanitize := options.sanitize
    includeStackTrace := options.includeStackTrace }

/-! ## Conversion -/

/-- A value thrown into the error boundary: a `BanError` object, an `Error`
instance, or any other JavaScript value (string, number, `null`,
`undefined`, arbitrary object). `ban` carries the runtime objects whose
shape is a constructed `BanError`; plain objects without that shape are
`val` values. -/
inductive Thrown : Type where
  | ban (e : BanError) : Thrown
  | err (message : String) (stack : Option String) : Thrown
  | val (v : JSValue) : Thrown

/-- Embeds `isBanError` from `src/core/convert-error.ts`: an object with
`isBan === true` and, when a status code is supplied (and not the falsy
`0`), a matching `status`. Total on every thrown value. -/
def isBanError (err : Thrown) (statusCode : Option Int) : Bool :=
  match err with
  | .ban e =>
      e.isBan &&
        (match statusCode with
         | none => true
         | some c => c == 0 || e.status == .num c)
  | _ => false

/-- Embeds `convertToBanError` from `src/core/convert-error.ts`. A value
already satisfying `isBanError` is merged field by field with the options
(the merged object literal carries no `causeStack`, `formatter`, `sanitize`
or `includeStackTrace` entry, so those are absent from the result); an
`Error` instance and any other value are wrapped through `createError`. -/
def convertToBanError (err : Thrown) (options : BanOptions) (freshStack : String) : BanError :=
  match err with
  | .ban e =>
      if e.isBan then
        { status := options.statusCode.getD e.status
          message := pick options.message e.message
          isBan := true
          data := pick options.data e.data
          headers := some (recordMerge (e.headers.getD []) (options.headers.getD []))
          allow :=
            match options.allow with
            | some a => if allowTruthy a then some (normalizeAllow a) else e.allow
            | none => e.allow
          cause :=
            match options.cause with
            | some c => if causeNullish c then e.cause else some c
            | none => e.cause
          stack := e.stack
          causeStack := none
          formatter := none
          sanitize := none
          includeStackTrace := none }
      else
        -- an object that merely resembles a BanError but has `isBan ≠ true`
        -- falls through to the generic branch; no claim inspects its cause
        createError
          { options with
            message := some (options.message.getD "Unknown error")
            cause := some (.cval .vundefined) }
          freshStack
  | .err m sk =>
      createError
        { options with
          message := some (options.message.getD m)
          cause := some (.cerr m sk) }
        freshStack
  | .val v =>
      createError
        { options with
          message :=
            some (options.message.getD (match v with | .vstr s => s | _ => "Unknown error"))
          cause := some (.cval v) }
        freshStack

/-! ## Factories -/

/-- Embeds the factories' shared helper `createErrorWithStatus`: a string
first argument is the message, any other first argument is an options
object spread under the second one, and the fixed status code wins. -/
def createErrorWithStatus (statusCode : Int)
    (messageOrOptions : Option (Sum String BanOptions)) (options : Option BanOptions)
    (freshStack : String) : BanError :=
  match messageOrOptions with
  | some (.inl msg) =>
      createError
        { options.getD {} with statusCode := some (.num statusCode), message := some msg }
        freshStack
  | some (.inr mo) =>
      createError
        { optsSpread mo (options.getD {}) with statusCode := some (.num statusCode) }
        freshStack
  | none =>
      createError
        { options.getD {} with statusCode := some (.num statusCode) }
        freshStack

/-- `badRequest` (status 400). -/
def badRequest := createErrorWithStatus 400

/-- `notFound` (status 404). -/
def notFound := createErrorWithStatus 404

/-- `methodNotAllowed` (status 405). -/
def methodNotAllowed := createErrorWithStatus 405

/-- `internal` (status 500). -/
def internal := createErrorWithStatus 500

/-- The option-merging step at the top of `badImplementation`. -/
def badImplMergeOptions (messageOrOptions : Option (Sum String BanOptions))
    (options : Option BanOptions) : BanOptions :=
  match messageOrOptions with
  | some (.inl msg) => { options.getD {} with message := some msg }
  | some (.inr mo) => optsSpread mo (options.getD {})
  | none => options.getD {}

/-- `x || {}` on the caller's `data` slot. -/
def jsOrEmptyObj : Option JSValue → JSValue
  | some v => if jsTruthy v then v else .vobj .nil
  | none => .vobj .nil

/-- Embeds `badImplementation` from `src/factories/server-errors.ts`: a 500
error whose `data` is the object literal
`{ isDeveloperError: true, ...(mergedOptions.data || {}) }` — the spread
runs after the literal entry, so caller entries override on collision. -/
def badImplementation (messageOrOptions : Option (Sum String BanOptions))
    (options : Option BanOptions) (freshStack : String) : BanError :=
  let mergedOptions := badImplMergeOptions messageOrOptions options
  let mergedData :=
    JSValue.vobj
      (spreadInto (.cons "isDeveloperError" (.vbool true) .nil)
        (jsOrEmptyObj mergedOptions.data))
  createError
    { mergedOptions with statusCode := some (.num 500), data := some mergedData }
    freshStack

/-! ## The default formatter -/

/-- The developer-error test used by the default formatter and by response
assembly: `data` is an object whose `isDeveloperError` entry is `true`. -/
def isDeveloperErrorData (data : Option JSValue) : Bool :=
  match data with
  | some (.vobj fs) =>
      match fieldsGet fs "isDeveloperError" with
      | some (.vbool true) => true
      | _ => false
  | _ => false

/-- Append an entry only when the value is present (an assignment guarded by
an `if` in the source). -/
def consOpt (name : String) (v : Option JSValue) (rest : JSFields) : JSFields :=
  match v with
  | some x => .cons name x rest
  | none => rest

/-- Embeds `defaultFormatter.format` from `src/formatters/default`:
`statusCode` and `error` always, `message` when it is a string, `stack` and
`causeStack` when stack traces are requested or the error is flagged a
developer error, `data` when defined — and the whole payload is passed
through the sanitizer. The `headers` argument is for HTTP headers only and
never enters the body. -/
def defaultFormat (error : BanBase) (headers : List (String × String))
    (sanitize : List String) (includeStackTrace : Bool) : JSValue :=
  let _ := headers
  let isDeveloperError := isDeveloperErrorData error.data
  let showStack := includeStackTrace || isDeveloperError
  sanitizeObject
    (.vobj
      (.cons "statusCode" (statusToJS error.status)
        (.cons "error" (.vstr ((STATUS_CODES error.status).getD "Unknown Error"))
          (consOpt "message" (error.message.map .vstr)
            (consOpt "stack" (if showStack then error.stack.map .vstr else none)
              (consOpt "causeStack" (if showStack then error.causeStack.map .vstr else none)
                (consOpt "data" error.data .nil)))))))
    sanitize

/-- The default JSON formatter value. -/
def defaultFormatter : ErrorFormatter :=
  { contentType := "application/json", format := defaultFormat }

/-- The content type declared by `createRFC7807Formatter`
(`src/formatters/rfc7807/formatter.ts`). -/
def rfc7807ContentType : String := "application/problem+json"

/-! ## Formatting and response assembly -/

/-- `FormatOptions`: the per-call formatting options. -/
structure FormatOptions : Type where
  headers : Option (List (String × String)) := none
  sanitize : Option (List String) := none
  includeStackTrace : Option Bool := none

/-- Embeds `formatError` from `src/core/format-error.ts`: apply the given
formatter directly; absent options fall to the `format` signature's
defaults (`{}`, `[]`, `false`). -/
def formatError (error : BanError) (formatter : ErrorFormatter)
    (options : FormatOptions) : JSValue :=
  formatter.format error.toBanBase (options.headers.getD [])
    (options.sanitize.getD []) (options.includeStackTrace.getD false)

/-- The transport response: status, header map, and the body value that gets
JSON-serialized. -/
structure ErrorResponse : Type where
  status : StatusVal
  headers : List (String × String)
  body : JSValue

/-- `undefined`-aware injection of a registry lookup into a body field. -/
def optStrToJS : Option String → JSValue
  | some s => .vstr s
  | none => .vundefined

/-- Embeds `createErrorResponse` from `src/core/format-error.ts`: headers
start from the literal `{"Content-Type": "application/json"}` with
`error.headers` spread over it, `Allow` is set for a non-empty `allow`
list, and a developer error in a production environment has its body
replaced by the minimal redacted object. -/
def createErrorResponse (error : BanError) (formatted : JSValue)
    (isProduction : Bool) : ErrorResponse :=
  let baseHeaders := recordMerge [("Content-Type", "application/json")] (error.headers.getD [])
  let headers :=
    match error.allow with
    | some l =>
        if l.length != 0 then recordSet baseHeaders "Allow" (String.intercalate ", " l)
        else baseHeaders
    | none => baseHeaders
  let isDeveloperError := isDeveloperErrorData error.data
  if isDeveloperError && isProduction then
    { status := error.status
      headers := headers
      body :=
        .vobj
          (.cons "statusCode" (statusToJS error.status)
            (.cons "error" (optStrToJS (STATUS_CODES error.status))
              (.cons "message" (.vstr "An internal server error occurred") .nil))) }
  else
    { status := error.status, headers := headers, body := formatted }

/-! ## The ban middleware -/

/-- `BanMiddlewareOptions`. -/
structure BanMiddlewareOptions : Type where
  formatter : Option ErrorFormatter := none
  sanitize : Option (List String) := none
  includeStackTrace : Option Bool := none
  headers : Option (List (String × String)) := none

/-- The middleware's fully-resolved configuration. -/
structure ResolvedOptions : Type where
  formatter : ErrorFormatter
  sanitize : List String
  includeStackTrace : Bool
  headers : List (String × String)

/-- `DEFAULT_OPTIONS` from `src/middleware/ban-middleware.ts`. -/
def DEFAULT_OPTIONS : ResolvedOptions :=
  { formatter := defaultFormatter
    sanitize := []
    includeStackTrace := false
    headers := [] }

/-- The option-resolution step at the top of `ban`: spread the defaults,
then the caller's options, with formatter falling back explicitly, headers
merged and sanitize lists concatenated. -/
def resolveOptions (options : BanMiddlewareOptions) : ResolvedOptions :=
  { formatter := options.formatter.getD DEFAULT_OPTIONS.formatter
    headers := recordMerge DEFAULT_OPTIONS.headers (options.headers.getD [])
    sanitize := DEFAULT_OPTIONS.sanitize ++ options.sanitize.getD []
    includeStackTrace := options.includeStackTrace.getD DEFAULT_OPTIONS.includeStackTrace }

/-- The options object the middleware hands to `convertToBanError` ("convert
to BanError with middleware options as fallback"). -/
def middlewareConvertOptions (resolvedOptions : ResolvedOptions) : BanOptions :=
  { formatter := some resolvedOptions.formatter
    headers := some resolvedOptions.headers
    sanitize := some resolvedOptions.sanitize
    includeStackTrace := some resolvedOptions.includeStackTrace }

/-- Embeds the error path of the `ban` middleware: convert the thrown value,
choose the error's formatter/sanitize/includeStackTrace over the resolved
defaults when present, format, and assemble the response. The environment
bits (`freshStack` for stack capture, `isProduction` for `NODE_ENV`) are
explicit arguments. -/
def ban (options : BanMiddlewareOptions) : Thrown → String → Bool → ErrorResponse :=
  let resolvedOptions := resolveOptions options
  fun err freshStack isProduction =>
    let error := convertToBanError err (middlewareConvertOptions resolvedOptions) freshStack
    let formatter := error.formatter.getD resolvedOptions.formatter
    let sanitize := resolvedOptions.sanitize ++ error.sanitize.getD []
    let includeStackTrace := error.includeStackTrace.getD resolvedOptions.includeStackTrace
    let formatted :=
      formatError error formatter
        { headers := some (error.headers.getD resolvedOptions.headers)
          sanitize := some sanitize
          includeStackTrace := some includeStackTrace }
    createErrorResponse error formatted isProduction

/-- The nested payload of the spec's scenario E:
`{data: {user: {password: "x", profile: {token: "y"}}}}`. -/
def scenarioE : JSValue :=
  .vobj (.cons "data"
    (.vobj (.cons "user"
      (.vobj (.cons "password" (.vstr "x")
        (.cons "profile" (.vobj (.cons "token" (.vstr "y") .nil)) .nil))) .nil)) .nil)

/-- Caller options whose `data` explicitly carries `isDeveloperError: false`. -/
def badImplConflictOptions : BanOptions :=
  { data := some (.vobj (.cons "isDeveloperError" (.vbool false) .nil)) }

/-- A pre-built BanError for exercising the merge branch of
`convertToBanError`. -/
def mergeWitnessError : BanError :=
  createError
    { statusCode := some (.num 403)
      message := some "orig"
      data := some (.vstr "d")
      headers := some [("X-A", "1")] }
    "st0"

/-- Options overriding the status (and a header) of an existing BanError. -/
def mergeWitnessOptions : BanOptions :=
  { statusCode := some (.num 400), headers := some [("X-B", "2")] }

/-- A custom formatter whose output is recognizable, for checking which
formatter the middleware actually ran. -/
def probeFormatter : ErrorFormatter :=
  { contentType := "application/json", format := fun _ _ _ _ => .vstr "probe" }

/-- A pre-built BanError thrown into the middleware carrying its own
formatter, sanitize list and `includeStackTrace` flag. -/
def preBuiltThrown : Thrown :=
  .ban
    (createError
      { statusCode := some (.num 404)
        message := some "boom"
        data := some (.vobj (.cons "secret" (.vstr "x") .nil))
        formatter := some probeFormatter
        sanitize := some ["secret"]
        includeStackTrace := some true }
      "origin-stack")

/-- A formatter declaring the RFC-7807 content type (its payload function is
irrelevant to response assembly, which never consults the formatter). -/
def problemJsonFormatter : ErrorFormatter :=
  { contentType := rfc7807ContentType, format := fun _ _ _ _ => .vnull }

/-- An error carrying the RFC-7807 formatter as its per-error formatter. -/
def problemFormatterError : BanError :=
  createError { formatter := some problemJsonFormatter } "stack"

/-- An error whose headers override `Content-Type`. -/
def contentTypeHeaderError : BanError :=
  createError { headers := some [("Content-Type", "text/plain")] } "stack"

theorem sanitizeObject_scalar (v : JSValue) (K : List String) (h : isScalar v = true) :
    sanitizeObject v K = v := by
  cases v <;> simp_all [sanitizeObject, isScalar]

mutual

theorem containsKeyDeep_sanitize (v : JSValue) (K : List String) (k : String)
    (hk : k ∈ K) : containsKeyDeep (sanitizeObject v K) k = false := by
  have hne : K.isEmpty = false := by
    cases K with
    | nil => cases hk
    | cons a t => rfl
  cases v with
  | varr items =>
      simp only [sanitizeObject, hne, Bool.false_eq_true, if_false, containsKeyDeep]
      exact listContainsKeyDeep_sanitize items K k hk
  | vobj fields =>
      simp only [sanitizeObject, hne, Bool.false_eq_true, if_false, containsKeyDeep]
      exact fieldsContainKeyDeep_sanitize fields K k hk
  | vnull => simp [sanitizeObject, containsKeyDeep]
  | vundefined => simp [sanitizeObject, containsKeyDeep]
  | vstr s => simp [sanitizeObject, containsKeyDeep]
  | vnum n => simp [sanitizeObject, containsKeyDeep]
  | vbool b => simp [sanitizeObject, containsKeyDeep]

theorem listContainsKeyDeep_sanitize (l : JSList) (K : List String) (k : String)
    (hk : k ∈ K) : listContainsKeyDeep (sanitizeList l K) k = false := by
  cases l with
  | nil => rfl
  | cons h t =>
      simp only [sanitizeList, listContainsKeyDeep, Bool.or_eq_false_iff]
      exact ⟨containsKeyDeep_sanitize h K k hk, listContainsKeyDeep_sanitize t K k hk⟩

theorem fieldsContainKeyDeep_sanitize (fs : JSFields) (K : List String) (k : String)
    (hk : k ∈ K) : fieldsContainKeyDeep (sanitizeFields fs K) k = false := by
  cases fs with
  | nil => rfl
  | cons n v t =>
      by_cases hn : K.contains n
      · simp only [sanitizeFields, hn, if_true]
        exact fieldsContainKeyDeep_sanitize t K k hk
      · have hnk : (n == k) = false := by
          apply beq_false_of_ne
          intro h
          exact hn (List.elem_eq_true_of_mem (h ▸ hk))
        simp only [sanitizeFields, hn, Bool.false_eq_true, if_false,
          fieldsContainKeyDeep, hnk, Bool.or_eq_false_iff, Bool.false_or]
        exact ⟨containsKeyDeep_sanitize v K k hk, fieldsContainKeyDeep_sanitize t K k hk⟩

end

theorem fieldsGet_sanitizeFields (fs : JSFields) (K : List String) (name : String)
    (h : name ∉ K) :
    fieldsGet (sanitizeFields fs K) name
      = (fieldsGet fs name).map (fun v => sanitizeObject v K) := by
  cases fs with
  | nil => rfl
  | cons n v t =>
      by_cases hn : K.contains n
      · have hnn : (n == name) = false := by
          apply beq_false_of_ne
          intro he
          exact h (he ▸ List.mem_of_elem_eq_true hn)
        simp only [sanitizeFields, hn, if_true, fieldsGet, hnn, Bool.false_eq_true, if_false]
        exact fieldsGet_sanitizeFields t K name h
      · simp only [sanitizeFields, hn, Bool.false_eq_true, if_false, fieldsGet]
        by_cases he : (n == name) = true
        · simp [he]
        · simp only [Bool.not_eq_true] at he
          simp only [he, Bool.false_eq_true, if_false]
          exact fieldsGet_sanitizeFields t K name h

theorem fieldsHas_sanitizeFields (fs : JSFields) (K : List String) (name : String)
    (h : name ∉ K) : fieldsHas (sanitizeFields fs K) name = fieldsHas fs name := by
  simp [fieldsHas, fieldsGet_sanitizeFields fs K name h]

mutual

theorem sanitizeObject_idem (v : JSValue) (K : List String) :
    sanitizeObject (sanitizeObject v K) K = sanitizeObject v K := by
  by_cases hK : K.isEmpty
  · cases v <;> simp [sanitizeObject, hK]
  · simp only [Bool.not_eq_true] at hK
    cases v with
    | varr items =>
        simp only [sanitizeObject, hK, Bool.false_eq_true, if_false]
        rw [sanitizeList_idem items K]
    | vobj fields =>
        simp only [sanitizeObject, hK, Bool.false_eq_true, if_false]
        rw [sanitizeFields_idem fields K]
    | vnull => simp [sanitizeObject, hK]
    | vundefined => simp [sanitizeObject, hK]
    | vstr s => simp [sanitizeObject, hK]
    | vnum n => simp [sanitizeObject, hK]
    | vbool b => simp [sanitizeObject, hK]

theorem sanitizeList_idem (l : JSList) (K : List String) :
    sanitizeList (sanitizeList l K) K = sanitizeList l K := by
  cases l with
  | nil => rfl
  | cons h t =>
      simp only [sanitizeList]
      rw [sanitizeObject_idem h K, sanitizeList_idem t K]

theorem sanitizeFields_idem (fs : JSFields) (K : List String) :
    sanitizeFields (sanitizeFields fs K) K = sanitizeFields fs K := by
  cases fs with
  | nil => rfl
  | cons n v t =>
      by_cases hn : K.contains n
      · simp only [sanitizeFields, hn, if_true]
        exact sanitizeFields_idem t K
      · simp only [sanitizeFields, hn, Bool.false_eq_true, if_false]
        rw [sanitizeObject_idem v K, sanitizeFields_idem t K]

end

/-! ## Record lemmas -/

theorem recordGet_set_self (m : List (String × String)) (k v : String) :
    recordGet (recordSet m k v) k = some v := by
  induction m with
  | nil => simp [recordSet, recordGet]
  | cons p t ih =>
      obtain ⟨n, w⟩ := p
      by_cases hn : n = k
      · simp [recordSet, recordGet, hn]
      · simp [recordSet, recordGet, hn, ih]

theorem recordGet_set_ne (m : List (String × String)) (k v k' : String)
    (h : k ≠ k') :
    recordGet (recordSet m k v) k' = recordGet m k' := by
  induction m with
  | nil => simp [recordSet, recordGet, h]
  | cons p t ih =>
      obtain ⟨n, w⟩ := p
      by_cases hn : n = k
      · simp [recordSet, recordGet, hn, h]
      · simp [recordSet, recordGet, hn, ih]

theorem recordGet_merge (a b : List (String × String)) (k : String)
    (hb : recordNodup b = true) :
    recordGet (recordMerge a b) k = pick (recordGet b k) (recordGet a k) := by
  induction b generalizing a with
  | nil => simp [recordMerge, recordGet, pick]
  | cons p t ih =>
      obtain ⟨n, v⟩ := p
      simp only [recordNodup, Bool.and_eq_true, Bool.not_eq_true'] at hb
      obtain ⟨hnt, hndt⟩ := hb
      have hstep : recordMerge a ((n, v) :: t) = recordMerge (recordSet a n v) t := rfl
      rw [hstep, ih (recordSet a n v) hndt]
      by_cases hnk : n = k
      · have htk : recordGet t k = none := by
          subst hnk
          simp only [recordHas] at hnt
          cases hgt : recordGet t n with
          | none => rfl
          | some x => rw [hgt] at hnt; simp at hnt
        subst hnk
        simp [recordGet, htk, pick, recordGet_set_self a n v]
      · simp [recordGet, hnk, recordGet_set_ne a n v k hnk]

/-! ## Object-field lemmas -/

theorem fieldsGet_setField_self (fs : JSFields) (k : String) (v : JSValue) :
    fieldsGet (setField fs k v) k = some v := by
  cases fs with
  | nil => simp [setField, fieldsGet]
  | cons n w t =>
      by_cases hn : n = k
      · simp [setField, fieldsGet, hn]
      · simp [setField, fieldsGet, hn, fieldsGet_setField_self t k v]

theorem fieldsGet_setField_ne (fs : JSFields) (n0 k : String) (v : JSValue)
    (h : n0 ≠ k) :
    fieldsGet (setField fs n0 v) k = fieldsGet fs k := by
  cases fs with
  | nil => simp [setField, fieldsGet, h]
  | cons n w t =>
      by_cases hn : n = n0
      · subst hn
        simp [setField, fieldsGet, h, Ne.symm h]
      · by_cases hk : n = k
        · simp [setField, fieldsGet, hn, hk, Ne.symm h]
        · simp [setField, fieldsGet, hn, hk, fieldsGet_setField_ne t n0 k v h]

theorem fieldsGet_foldSet_notin (es : JSFields) (base : JSFields) (k : String)
    (h : fieldsHas es k = false) :
    fieldsGet (foldSet base es) k = fieldsGet base k := by
  cases es with
  | nil => rfl
  | cons n v t =>
      have hn : n ≠ k := by
        intro hc
        simp [fieldsHas, fieldsGet, hc] at h
      have ht : fieldsHas t k = false := by
        simpa [fieldsHas, fieldsGet, hn] using h
      show fieldsGet (foldSet (setField base n v) t) k = fieldsGet base k
      rw [fieldsGet_foldSet_notin t (setField base n v) k ht]
      exact fieldsGet_setField_ne base n k v hn

/-! ## Status lemmas -/

theorem validateStatusCode_mem (s : StatusVal) :
    400 ≤ validateStatusCode s ∧ validateStatusCode s ≤ 599 := by
  cases s with
  | nan => exact ⟨by norm_num [validateStatusCode], by norm_num [validateStatusCode]⟩
  | nonNum => exact ⟨by norm_num [validateStatusCode], by norm_num [validateStatusCode]⟩
  | num n =>
      simp only [validateStatusCode]
      by_cases h : (n < 400 || 600 ≤ n) = true
      · simp [h]
      · simp only [Bool.not_eq_true, Bool.or_eq_false_iff, decide_eq_false_iff_not,
          not_lt, not_le] at h
        simp only [Bool.or_eq_true, decide_eq_true_eq] at *
        rw [if_neg]
        · omega
        · push_neg
          omega

theorem statusInRange_validate (s : StatusVal) :
    statusInRange (.num (validateStatusCode s)) = true := by
  have h := validateStatusCode_mem s
  simp only [statusInRange, Bool.and_eq_true, decide_eq_true_eq]
  omega

theorem validateStatusCode_out (s : StatusVal) (h : statusInRange s = false) :
    validateStatusCode s = 500 := by
  cases s with
  | nan => rfl
  | nonNum => rfl
  | num n =>
      simp only [statusInRange, Bool.and_eq_false_iff, decide_eq_false_iff_not,
        not_le] at h
      simp only [validateStatusCode]
      rw [if_pos]
      simp only [Bool.or_eq_true, decide_eq_true_eq]
      omega

/-! ## Formatter and assembly lemmas -/

theorem createErrorResponse_headers (e : BanError) (formatted : JSValue) (p : Bool) :
    (createErrorResponse e formatted p).headers =
      (match e.allow with
       | some l =>
           if l.length != 0 then
             recordSet
               (recordMerge [("Content-Type", "application/json")] (e.headers.getD []))
               "Allow" (String.intercalate ", " l)
           else recordMerge [("Content-Type", "application/json")] (e.headers.getD [])
       | none => recordMerge [("Content-Type", "application/json")] (e.headers.getD [])) := by
  simp only [createErrorResponse]
  split <;> rfl

/-! ## Claims -/

/-- C9: for every value and non-empty key list `K`, `sanitizeObject` leaves
no object entry named by a key of `K` at any depth — at the top level, in
nested objects and inside array elements alike — removes entries only by
key name (an entry with an unlisted name survives at its object level no
matter what its value is), and passes scalars through unchanged. -/
theorem claim_C9 (v : JSValue) (K : List String) (hne : K ≠ []) :
    (∀ k, k ∈ K → containsKeyDeep (sanitizeObject v K) k = false)
    ∧ (isScalar v = true → sanitizeObject v K = v)
    ∧ (∀ fs name, name ∉ K →
        fieldsHas (sanitizeFields fs K) name = fieldsHas fs name) := by
  have _ := hne
  exact ⟨fun k hk => containsKeyDeep_sanitize v K k hk,
    fun h => sanitizeObject_scalar v K h,
    fun fs name h => fieldsHas_sanitizeFields fs K name h⟩

/-- Witness for C9 at the scenario-E payload. -/
theorem claim_C9_witness :
    containsKeyDeep (sanitizeObject scenarioE ["password", "token"]) "password" = false :=
  (claim_C9 scenarioE ["password", "token"] (by decide)).1 "password" (by decide)

/-- C10: the sanitizer is idempotent — sanitizing an already-sanitized
structure with the same key list changes nothing. -/
theorem claim_C10 (v : JSValue) (K : List String) :
    sanitizeObject (sanitizeObject v K) K = sanitizeObject v K :=
  sanitizeObject_idem v K

/-- C1 counterexample: `badImplementation` called with caller data
`{isDeveloperError: false}` produces an error whose `data.isDeveloperError`
is `false` — the spread of the caller's `data` runs after the
`isDeveloperError: true` literal entry, so the caller's value wins and the
flag is not forced true. -/
theorem claim_C1_counterexample :
    (badImplementation none (some badImplConflictOptions) "stack").data
      = some (.vobj (.cons "isDeveloperError" (.vbool false) .nil))
    ∧ isDeveloperErrorData
        (badImplementation none (some badImplConflictOptions) "stack").data = false :=
  ⟨rfl, rfl⟩

/-- C1 amended: `badImplementation` always has status 500 and merges
`{isDeveloperError: true}` into `data` as a default — caller-provided
`data` fields win on key collision, including `isDeveloperError` itself,
so the flag is `true` whenever the caller's data does not explicitly
override it. -/
theorem claim_C1_amended (messageOrOptions : Option (Sum String BanOptions))
    (options : Option BanOptions) (freshStack : String)
    (hnc : fieldsHas
        (entriesOf (jsOrEmptyObj (badImplMergeOptions messageOrOptions options).data))
        "isDeveloperError" = false) :
    (∃ fs, (badImplementation messageOrOptions options freshStack).data = some (.vobj fs)
        ∧ fieldsGet fs "isDeveloperError" = some (.vbool true))
    ∧ (badImplementation messageOrOptions options freshStack).status = .num 500 := by
  constructor
  · refine ⟨_, rfl, ?_⟩
    show fieldsGet
      (spreadInto (.cons "isDeveloperError" (.vbool true) .nil)
        (jsOrEmptyObj (badImplMergeOptions messageOrOptions options).data))
      "isDeveloperError" = some (.vbool true)
    unfold spreadInto
    rw [fieldsGet_foldSet_notin _ _ _ hnc]
    rfl
  · rfl

/-- Witness for C1 (amended) at caller data `{field: "test"}`. -/
theorem claim_C1_witness :
    (∃ fs, (badImplementation none
        (some { data := some (.vobj (.cons "field" (.vstr "test") .nil)) }) "s").data
          = some (.vobj fs)
        ∧ fieldsGet fs "isDeveloperError" = some (.vbool true))
    ∧ (badImplementation none
        (some { data := some (.vobj (.cons "field" (.vstr "test") .nil)) }) "s").status
          = .num 500 :=
  claim_C1_amended none
    (some { data := some (.vobj (.cons "field" (.vstr "test") .nil)) }) "s" (by decide)

/-- C5: `createError` always normalizes its status into `[400, 599]`, and
any out-of-range or non-numeric status input yields exactly 500. -/
theorem claim_C5 (s : StatusVal) (freshStack : String) :
    statusInRange (createError { statusCode := some s } freshStack).status = true
    ∧ (statusInRange s = false →
        (createError { statusCode := some s } freshStack).status = .num 500) := by
  constructor
  · show statusInRange (.num (validateStatusCode ((some s).getD (.num 500)))) = true
    exact statusInRange_validate s
  · intro h
    show StatusVal.num (validateStatusCode ((some s).getD (.num 500))) = .num 500
    rw [Option.getD_some, validateStatusCode_out s h]

/-- Witness for C5 at the out-of-range status 700. -/
theorem claim_C5_witness :
    (createError { statusCode := some (.num 700) } "s").status = .num 500 :=
  (claim_C5 (.num 700) "s").2 (by decide)

/-- C6: `convertToBanError` is total — it is a function in this model — and
for every thrown value (a BanError, an `Error` instance, a string, a
number, `null`, `undefined`, or an arbitrary object) its result carries
`isBan = true` and hence satisfies `isBanError`. -/
theorem claim_C6 (t : Thrown) (options : BanOptions) (freshStack : String) :
    (convertToBanError t options freshStack).isBan = true
    ∧ isBanError (.ban (convertToBanError t options freshStack)) none = true := by
  have h : (convertToBanError t options freshStack).isBan = true := by
    cases t with
    | ban e =>
        by_cases hb : e.isBan
        · simp [convertToBanError, hb]
        · simp [convertToBanError, hb, createError]
    | err m sk => rfl
    | val v => rfl
  exact ⟨h, by simp [isBanError, h]⟩

/-- C2 counterexample: `createErrorResponse` never consults the formatter —
for an error whose per-error (active) formatter declares
`application/problem+json`, the response's `Content-Type` is still the
hard-coded `application/json`. -/
theorem claim_C2_counterexample :
    problemFormatterError.formatter.map ErrorFormatter.contentType
      = some "application/problem+json"
    ∧ recordGet (createErrorResponse problemFormatterError .vnull false).headers
        "Content-Type" = some "application/json"
    ∧ ("application/json" : String) ≠ "application/problem+json" :=
  ⟨rfl, rfl, by decide⟩

/-- C2 amended: the response headers built by `createErrorResponse` carry
`Content-Type` equal to the fixed literal `"application/json"` (which is
the Default formatter's declared content type but is used regardless of
the active formatter), with an error-level `Content-Type` header winning
over this default. -/
theorem claim_C2_amended (e : BanError) (formatted : JSValue) (isProduction : Bool)
    (hnd : recordNodup (e.headers.getD []) = true) :
    recordGet (createErrorResponse e formatted isProduction).headers "Content-Type"
      = some ((recordGet (e.headers.getD []) "Content-Type").getD "application/json") := by
  rw [createErrorResponse_headers]
  have hbase :
      recordGet (recordMerge [("Content-Type", "application/json")] (e.headers.getD []))
          "Content-Type"
        = some ((recordGet (e.headers.getD []) "Content-Type").getD "application/json") := by
    rw [recordGet_merge _ _ _ hnd]
    cases hg : recordGet (e.headers.getD []) "Content-Type" with
    | none => simp [pick, recordGet]
    | some x => simp [pick]
  cases e.allow with
  | none => exact hbase
  | some l =>
      by_cases hl : (l.length != 0) = true
      · simp only [hl, if_true]
        rw [recordGet_set_ne _ _ _ _ (by decide : "Allow" ≠ "Content-Type")]
        exact hbase
      · simp only [Bool.not_eq_true] at hl
        simp only [hl, Bool.false_eq_true, if_false]
        exact hbase

/-- Witness for C2 (amended): an error-level `Content-Type` header wins over
the default. -/
theorem claim_C2_witness :
    recordGet (createErrorResponse contentTypeHeaderError (.vstr "b") false).headers
      "Content-Type" = some "text/plain" :=
  claim_C2_amended contentTypeHeaderError (.vstr "b") false rfl

/-- C3: the claim fails on the code. A pre-built BanError thrown with its
own formatter (`probeFormatter`), sanitize list (`["secret"]`) and
`includeStackTrace := true` loses all three in `convertToBanError`'s
already-BanError merge branch (whose object literal carries no such
entries), so the middleware falls back to its defaults: the body is the
Default formatter's output — not the probe formatter's `"probe"` string —
with the `secret` entry still present and no `stack` entry, contradicting
the claimed per-error precedence (and the middleware's own comments and
the RFC-7807 hook documentation, which promise that per-error values win). -/
theorem claim_C3_code_divergence :
    (convertToBanError preBuiltThrown
        (middlewareConvertOptions (resolveOptions {})) "mw-stack").formatter.isNone = true
    ∧ (convertToBanError preBuiltThrown
        (middlewareConvertOptions (resolveOptions {})) "mw-stack").sanitize.isNone = true
    ∧ (convertToBanError preBuiltThrown
        (middlewareConvertOptions (resolveOptions {})) "mw-stack").includeStackTrace.isNone
        = true
    ∧ (ban {} preBuiltThrown "mw-stack" false).body
        = .vobj (.cons "statusCode" (.vnum 404)
            (.cons "error" (.vstr "Not Found")
              (.cons "message" (.vstr "boom")
                (.cons "data" (.vobj (.cons "secret" (.vstr "x") .nil)) .nil))))
    ∧ containsKeyDeep (ban {} preBuiltThrown "mw-stack" false).body "secret" = true
    ∧ containsKeyDeep (ban {} preBuiltThrown "mw-stack" false).body "stack" = false :=
  ⟨rfl, rfl, rfl, rfl, rfl, rfl⟩

/-- C4: every operation of the error model yields a status in `[400, 599]`:
`createError` (which validates), the factories' shared helper for any
integer code, the named factories, `badImplementation`, and all branches of
`convertToBanError` — the already-BanError merge branch under the
assumptions that the existing error satisfies the invariant and that any
`statusCode` override is in range (the `ErrorStatusCode` type), the other
two branches unconditionally. -/
theorem claim_C4 :
    (∀ (options : BanOptions) (freshStack : String),
        statusInRange (createError options freshStack).status = true)
    ∧ (∀ (code : Int) (messageOrOptions : Option (Sum String BanOptions))
          (options : Option BanOptions) (freshStack : String),
        statusInRange (createErrorWithStatus code messageOrOptions options freshStack).status
          = true)
    ∧ (∀ (messageOrOptions : Option (Sum String BanOptions))
          (options : Option BanOptions) (freshStack : String),
        statusInRange (badRequest messageOrOptions options freshStack).status = true
        ∧ statusInRange (notFound messageOrOptions options freshStack).status = true
        ∧ statusInRange (methodNotAllowed messageOrOptions options freshStack).status = true
        ∧ statusInRange (internal messageOrOptions options freshStack).status = true)
    ∧ (∀ (messageOrOptions : Option (Sum String BanOptions))
          (options : Option BanOptions) (freshStack : String),
        statusInRange (badImplementation messageOrOptions options freshStack).status = true)
    ∧ (∀ (e : BanError) (options : BanOptions) (freshStack : String),
        statusInRange e.status = true →
        (∀ s, options.statusCode = some s → statusInRange s = true) →
        statusInRange (convertToBanError (.ban e) options freshStack).status = true)
    ∧ (∀ (m : String) (sk : Option String) (options : BanOptions) (freshStack : String),
        statusInRange (convertToBanError (.err m sk) options freshStack).status = true)
    ∧ (∀ (v : JSValue) (options : BanOptions) (freshStack : String),
        statusInRange (convertToBanError (.val v) options freshStack).status = true) := by
  have hcreate : ∀ (options : BanOptions) (freshStack : String),
      statusInRange (createError options freshStack).status = true :=
    fun _ _ => statusInRange_validate _
  have hwith : ∀ (code : Int) (m : Option (Sum String BanOptions))
      (o : Option BanOptions) (f : String),
      statusInRange (createErrorWithStatus code m o f).status = true := by
    intro code m o f
    cases m with
    | none => exact hcreate _ _
    | some mo =>
        cases mo with
        | inl msg => exact hcreate _ _
        | inr op => exact hcreate _ _
  refine ⟨hcreate, hwith, ?_, ?_, ?_, ?_, ?_⟩
  · exact fun m o f => ⟨hwith 400 m o f, hwith 404 m o f, hwith 405 m o f, hwith 500 m o f⟩
  · exact fun m o f => hcreate _ _
  · intro e options freshStack he hs
    by_cases hb : e.isBan
    · simp only [convertToBanError]
      rw [if_pos hb]
      show statusInRange (options.statusCode.getD e.status) = true
      cases hsc : options.statusCode with
      | none => simpa using he
      | some s => simpa using hs s hsc
    · simp only [convertToBanError]
      rw [if_neg hb]
      exact hcreate _ _
  · exact fun m sk o f => hcreate _ _
  · exact fun v o f => hcreate _ _

/-- Witness for C4 at the merge branch: a freshly constructed BanError with
a status-400-in-range override. -/
theorem claim_C4_witness :
    statusInRange (convertToBanError (.ban (createError {} "s0"))
      { statusCode := some (.num 404) } "s1").status = true :=
  claim_C4.2.2.2.2.1 (createError {} "s0") { statusCode := some (.num 404) } "s1" rfl
    (fun s h => by
      have h2 := Option.some.inj h
      subst h2
      rfl)

/-- C7: converting a value that already satisfies `isBanError` merges field
by field — for each of status/message/data/cause the explicit option wins
when present and the existing value is kept otherwise, headers are
shallow-merged with the override winning on key conflicts, a (truthy)
`allow` override replaces the sequence entirely, and the stack is always
the original error's, never the freshly captured one. -/
theorem claim_C7 (e : BanError) (opts : BanOptions) (freshStack : String)
    (hban : e.isBan = true)
    (hnd : recordNodup (opts.headers.getD []) = true) :
    (convertToBanError (.ban e) opts freshStack).status = opts.statusCode.getD e.status
    ∧ (convertToBanError (.ban e) opts freshStack).message = pick opts.message e.message
    ∧ (convertToBanError (.ban e) opts freshStack).data = pick opts.data e.data
    ∧ (∀ k, recordGet ((convertToBanError (.ban e) opts freshStack).headers.getD []) k
        = pick (recordGet (opts.headers.getD []) k) (recordGet (e.headers.getD []) k))
    ∧ (convertToBanError (.ban e) opts freshStack).allow
        = (match opts.allow with
           | some a => if allowTruthy a then some (normalizeAllow a) else e.allow
           | none => e.allow)
    ∧ (convertToBanError (.ban e) opts freshStack).cause
        = (match opts.cause with
           | some c => if causeNullish c then e.cause else some c
           | none => e.cause)
    ∧ (convertToBanError (.ban e) opts freshStack).stack = e.stack := by
  have hred : convertToBanError (.ban e) opts freshStack =
      { status := opts.statusCode.getD e.status
        message := pick opts.message e.message
        isBan := true
        data := pick opts.data e.data
        headers := some (recordMerge (e.headers.getD []) (opts.headers.getD []))
        allow :=
          match opts.allow with
          | some a => if allowTruthy a then some (normalizeAllow a) else e.allow
          | none => e.allow
        cause :=
          match opts.cause with
          | some c => if causeNullish c then e.cause else some c
          | none => e.cause
        stack := e.stack
        causeStack := none
        formatter := none
        sanitize := none
        includeStackTrace := none } := by
    simp only [convertToBanError]
    rw [if_pos hban]
  rw [hred]
  refine ⟨rfl, rfl, rfl, ?_, rfl, rfl, rfl⟩
  intro k
  show recordGet (recordMerge (e.headers.getD []) (opts.headers.getD [])) k = _
  exact recordGet_merge _ _ _ hnd

/-- Witness for C7: `convert(existing, {statusCode: 400})`-style merge
preserves message and data, overrides the status, and keeps the original
stack. -/
theorem claim_C7_witness :
    (convertToBanError (.ban mergeWitnessError) mergeWitnessOptions "st1").status = .num 400
    ∧ (convertToBanError (.ban mergeWitnessError) mergeWitnessOptions "st1").message
        = some "orig"
    ∧ (convertToBanError (.ban mergeWitnessError) mergeWitnessOptions "st1").data
        = some (.vstr "d")
    ∧ (convertToBanError (.ban mergeWitnessError) mergeWitnessOptions "st1").stack
        = some "st0" := by
  have h := claim_C7 mergeWitnessError mergeWitnessOptions "st1" rfl rfl
  exact ⟨h.1, h.2.1, h.2.2.1, h.2.2.2.2.2.2⟩

end HonoBan
